import Mathlib

/-!
Shallow embedding of the `posi` rate-limiting library
(`src/rate_limiter.rs`, `src/scheduler.rs`, `src/log_storage.rs`).

Modelling conventions:
* `usize` is modelled as `Nat` (non-negative by type, like `usize`).
* `std::time::Duration` is modelled as a `Nat` count of abstract time units;
  `std::time::Instant` as a point on a discrete time line (`Nat`, or `Int`
  where the saturation behaviour of instant subtraction is itself the point
  being verified).  `Instant::duration_since` saturates at zero in Rust, which
  truncated `Nat` subtraction reproduces.
* Interior mutability (`Arc<Mutex<...>>`) is modelled by explicit state
  passing: each method returns its result together with the updated value.
  Calls are serialized by the mutex in the source, so the sequential
  state-passing semantics is the observable one.
* The token-bucket permit count is modelled as `Int` so that the
  non-negativity asserted by the spec is a real statement rather than a
  typing artifact.
-/

namespace Posi

/-- `Rate { permit_num: usize, duration: Duration }` from `src/rate_limiter.rs`.
A plain struct: the source performs no validation at construction. -/
structure Rate where
  permit_num : Nat
  duration : Nat
deriving DecidableEq

/-- Modelled from the spec: the fail-fast `Rate` constructor that claim C10
describes ("zero ... values are a configuration error"; "fail fast at
construction for invalid `Rate` values").  No such validating constructor
exists in the source, where `Rate` is built by a plain struct literal; this
definition exists only to be compared with the source behaviour. -/
def Rate.newChecked (permit_num : Nat) (duration : Nat) : Option Rate :=
  if permit_num = 0 ∨ duration = 0 then none
  else some { permit_num := permit_num, duration := duration }

/-- `Scheduler` from `src/scheduler.rs`: a fixed interval and an
`Arc<Mutex<bool>>` running flag. -/
structure Scheduler where
  interval : Nat
  is_running : Bool
deriving DecidableEq

/-- `Scheduler::new(interval)`. -/
def Scheduler.new (interval : Nat) : Scheduler :=
  { interval := interval, is_running := false }

/-- `Scheduler::start(task)`.  Returns the `bool` result of the call, the
updated scheduler state, and whether this call spawned a background task
(the observable effect of `thread::spawn`): if the running flag is already
set the call returns `false`, changes nothing and spawns nothing; otherwise
it sets the flag, spawns the periodic task and returns `true`. -/
def Scheduler.start (s : Scheduler) : Bool × Scheduler × Bool :=
  if s.is_running then (false, s, false)
  else (true, { s with is_running := true }, true)

/-- `Scheduler::stop()`: clears the running flag. -/
def Scheduler.stop (s : Scheduler) : Scheduler :=
  { s with is_running := false }

/-- `Instant::sub` / `Instant::duration_since` on the `Int` time line:
the amount of time from `b` to `a`, saturating at zero when `b` is later
(`Duration` is non-negative in Rust, and `duration_since` saturates). -/
def instant_sub (a b : Int) : Int :=
  max (a - b) 0

/-- The sleep duration computed by one iteration of the scheduler loop in
`Scheduler::start`: `t0` is the instant captured before invoking the action,
`t1` the instant observed after it returns, and the loop executes
`thread::sleep((t0 + interval) - t1)` with saturating instant subtraction. -/
def scheduler_loop_sleep (interval t0 t1 : Int) : Int :=
  instant_sub (t0 + interval) t1

/-- One entry of the moka cache in `InMemoryLogStorage`: a fresh unique token
(`Uuid::new_v4`, modelled by a monotone counter) with the instant at which
the entry's time-to-live elapses. -/
structure LogEntry where
  token : Nat
  expires_at : Nat
deriving DecidableEq

/-- `InMemoryLogStorage` from `src/log_storage.rs`: a moka cache built with
`max_capacity(size)` and `time_to_live(duration)`.  Capacity-based eviction
in moka is asynchronous best-effort maintenance, not part of the synchronous
semantics of `insert`, so it is not modelled; the TTL configured at
construction is, because `iter()` (hence `count`) skips expired entries. -/
structure InMemoryLogStorage where
  capacity : Nat
  time_to_live : Nat
  next_token : Nat
  entries : List LogEntry
deriving DecidableEq

/-- `InMemoryLogStorage::new(size, duration)`. -/
def InMemoryLogStorage.new (size : Nat) (duration : Nat) : InMemoryLogStorage :=
  { capacity := size, time_to_live := duration, next_token := 0, entries := [] }

/-- One `self.cache.insert(Uuid::new_v4().to_string(), 1)` at instant `now`:
a fresh token, expiring `time_to_live` after insertion (the TTL comes from the
cache built in `new`). -/
def InMemoryLogStorage.insert_one (s : InMemoryLogStorage) (now : Nat) : InMemoryLogStorage :=
  { s with
    next_token := s.next_token + 1,
    entries := s.entries ++ [{ token := s.next_token, expires_at := now + s.time_to_live }] }

/-- `InMemoryLogStorage::store(attempts, duration)`: the loop
`for _ in 0..attempts { self.cache.insert(...) }`.  Note the `duration`
argument is unused in the source — entries expire according to the
`time_to_live` the cache was built with. -/
def InMemoryLogStorage.store : InMemoryLogStorage → Nat → Nat → Nat → InMemoryLogStorage
  | s, 0, _, _ => s
  | s, n + 1, d, now => (s.insert_one now).store n d now

/-- Modelled from the spec: the version of `store` that claim C7 describes,
in which every inserted entry carries the expiration `duration` passed to
that call.  To be compared with `InMemoryLogStorage.store` from the source,
which ignores that argument in favour of the constructor-configured TTL. -/
def InMemoryLogStorage.storeClaimed : InMemoryLogStorage → Nat → Nat → Nat → InMemoryLogStorage
  | s, 0, _, _ => s
  | s, n + 1, d, now =>
      InMemoryLogStorage.storeClaimed
        { s with
          next_token := s.next_token + 1,
          entries := s.entries ++ [{ token := s.next_token, expires_at := now + d }] }
        n d now

/-- `InMemoryLogStorage::count()`: `self.cache.iter().count()` at instant
`now` — moka's iterator skips entries whose TTL has elapsed, so the count is
the number of live (not yet expired) entries. -/
def InMemoryLogStorage.count (s : InMemoryLogStorage) (now : Nat) : Nat :=
  (s.entries.filter (fun e => decide (now < e.expires_at))).length

/-- `TokenBucketRateLimiter` from `src/rate_limiter.rs`.  The permit count
lives behind `Arc<Mutex<usize>>`; it is modelled as `Int` so that
non-negativity is a provable property rather than a typing artifact. -/
structure TokenBucketRateLimiter where
  rate : Rate
  permits : Int
  schedulers : Scheduler
deriving DecidableEq

/-- `TokenBucketRateLimiter::new(rate)`: the bucket starts full
(`permits = rate.permit_num`) with a fresh, not-yet-running scheduler built
on `rate.duration`. -/
def TokenBucketRateLimiter.new (rate : Rate) : TokenBucketRateLimiter :=
  { rate := rate,
    permits := (rate.permit_num : Int),
    schedulers := Scheduler.new rate.duration }

/-- `TokenBucketRateLimiter::try_acquire(permits)`: under the mutex, refuse
and leave the count unchanged when `available_permits < permits`, otherwise
subtract `permits` and accept. -/
def TokenBucketRateLimiter.try_acquire (l : TokenBucketRateLimiter) (permits : Nat) :
    Bool × TokenBucketRateLimiter :=
  if l.permits < (permits : Int) then (false, l)
  else (true, { l with permits := l.permits - (permits : Int) })

/-- The refill closure passed to the scheduler in
`TokenBucketRateLimiter::start`:
`*available_permits = min(permit_num, *available_permits + permit_num)`. -/
def TokenBucketRateLimiter.refill (l : TokenBucketRateLimiter) : TokenBucketRateLimiter :=
  { l with permits := min (l.rate.permit_num : Int) (l.permits + (l.rate.permit_num : Int)) }

/-- `TokenBucketRateLimiter::start()`: delegates to `Scheduler::start` with
the refill closure and discards its boolean result (the Rust method returns
`()`).  The second component records whether this call spawned a refill
task, the observable effect of the underlying `thread::spawn`. -/
def TokenBucketRateLimiter.start (l : TokenBucketRateLimiter) :
    TokenBucketRateLimiter × Bool :=
  ({ l with schedulers := (Scheduler.start l.schedulers).2.1 },
   (Scheduler.start l.schedulers).2.2)

/-- One serialized mutation of a token bucket's permit count: either a caller
thread's `try_acquire` or one tick of the scheduler's refill closure.  The
mutex in the source serializes these, so any interleaving is a sequence of
such steps. -/
inductive TBStep where
  | acquire (permits : Nat)
  | refill
deriving DecidableEq

/-- Apply one step to a token bucket. -/
def TBStep.apply (l : TokenBucketRateLimiter) : TBStep → TokenBucketRateLimiter
  | .acquire p => (l.try_acquire p).2
  | .refill => l.refill

/-- The token bucket reached from `TokenBucketRateLimiter::new(rate)` by an
arbitrary interleaving of acquire and refill steps. -/
def TokenBucketRateLimiter.run (rate : Rate) (steps : List TBStep) : TokenBucketRateLimiter :=
  steps.foldl TBStep.apply (TokenBucketRateLimiter.new rate)

/-- `FixedWindowRateLimiter` from `src/rate_limiter.rs`: a counter and the
window-start instant, each behind `Arc<Mutex<...>>`. -/
structure FixedWindowRateLimiter where
  rate : Rate
  counter : Nat
  window_start : Nat
deriving DecidableEq

/-- `FixedWindowRateLimiter::new(rate)` at construction instant `now`. -/
def FixedWindowRateLimiter.new (rate : Rate) (now : Nat) : FixedWindowRateLimiter :=
  { rate := rate, counter := 0, window_start := now }

/-- `FixedWindowRateLimiter::reset_window()`: zero the counter and restart
the window at the current instant. -/
def FixedWindowRateLimiter.reset_window (l : FixedWindowRateLimiter) (now : Nat) :
    FixedWindowRateLimiter :=
  { l with counter := 0, window_start := now }

/-- `FixedWindowRateLimiter::try_acquire(permits)` at instant `now`: when
`now.duration_since(window_start) > duration` (saturating subtraction, hence
truncated `Nat` subtraction) reset the window first; then refuse when the
incremented counter would exceed `permit_num`, otherwise commit. -/
def FixedWindowRateLimiter.try_acquire (l : FixedWindowRateLimiter) (now : Nat)
    (permits : Nat) : Bool × FixedWindowRateLimiter :=
  let l1 := if l.rate.duration < now - l.window_start then l.reset_window now else l
  if l1.rate.permit_num < l1.counter + permits then (false, l1)
  else (true, { l1 with counter := l1.counter + permits })

/-- `SlidingWindowLogRateLimiter` from `src/rate_limiter.rs`, holding its
log storage behind `Arc<Mutex<Box<dyn LogStorage>>>`; the storage actually
used (tests and factory) is `InMemoryLogStorage`. -/
structure SlidingWindowLogRateLimiter where
  rate : Rate
  log_storage : InMemoryLogStorage
deriving DecidableEq

/-- `SlidingWindowLogRateLimiter::new(rate, log_storage)`. -/
def SlidingWindowLogRateLimiter.new (rate : Rate) (log_storage : InMemoryLogStorage) :
    SlidingWindowLogRateLimiter :=
  { rate := rate, log_storage := log_storage }

/-- `SlidingWindowLogRateLimiter::try_acquire(permits)` at instant `now`:
unconditionally `store` the `permits` entries, then `count` the live entries
and accept iff `count <= permit_num`. -/
def SlidingWindowLogRateLimiter.try_acquire (l : SlidingWindowLogRateLimiter)
    (now : Nat) (permits : Nat) : Bool × SlidingWindowLogRateLimiter :=
  let storage := l.log_storage.store permits l.rate.duration now
  (decide (storage.count now ≤ l.rate.permit_num), { l with log_storage := storage })

/-! ### Helper lemmas -/

/-- Characterization of `InMemoryLogStorage.store`: the loop appends
`n` consecutively-tokenized entries, each expiring `time_to_live` after
insertion, and advances the token counter by `n`. -/
lemma InMemoryLogStorage.store_eq (s : InMemoryLogStorage) (n d now : Nat) :
    s.store n d now =
      { s with
        next_token := s.next_token + n,
        entries := s.entries ++ (List.range n).map
          (fun i => { token := s.next_token + i, expires_at := now + s.time_to_live }) } := by
  induction n generalizing s with
  | zero => cases s; simp [InMemoryLogStorage.store]
  | succ n ih =>
      cases s with
      | mk cap ttl next entries =>
          rw [InMemoryLogStorage.store, ih]
          simp only [InMemoryLogStorage.insert_one]
          have hmap : (List.range (n + 1)).map
              (fun i => ({ token := next + i, expires_at := now + ttl } : LogEntry)) =
              ({ token := next, expires_at := now + ttl } : LogEntry) ::
                (List.range n).map
                  (fun i => ({ token := next + 1 + i, expires_at := now + ttl } : LogEntry)) := by
            rw [List.range_succ_eq_map, List.map_cons, List.map_map]
            congr 1
            simp
            intro a _
            omega
          rw [hmap]
          simp only [List.append_assoc, List.cons_append, List.nil_append,
            InMemoryLogStorage.mk.injEq, true_and, and_true]
          omega

/-- `store` ignores its `duration` argument: the expiration comes from the
cache's configured `time_to_live`. -/
lemma InMemoryLogStorage.store_duration_irrelevant (s : InMemoryLogStorage)
    (n d d2 now : Nat) : s.store n d now = s.store n d2 now := by
  rw [InMemoryLogStorage.store_eq, InMemoryLogStorage.store_eq]

/-- After a `store` of `n` entries, at least `n` entries are live at the
insertion instant, provided the configured time-to-live is positive. -/
lemma InMemoryLogStorage.count_store_ge (s : InMemoryLogStorage) (n d now : Nat)
    (h : 0 < s.time_to_live) : n ≤ (s.store n d now).count now := by
  rw [InMemoryLogStorage.store_eq]
  unfold InMemoryLogStorage.count
  simp only [List.filter_append, List.length_append]
  have hfil : ((List.range n).map
      (fun i => ({ token := s.next_token + i, expires_at := now + s.time_to_live } : LogEntry))).filter
        (fun e => decide (now < e.expires_at)) =
      (List.range n).map
        (fun i => ({ token := s.next_token + i, expires_at := now + s.time_to_live } : LogEntry)) := by
    apply List.filter_eq_self.mpr
    intro e he
    simp only [List.mem_map, List.mem_range] at he
    obtain ⟨i, _, rfl⟩ := he
    simpa using h
  rw [hfil]
  simp

/-! ### Claim theorems -/

/-- Claim C1: a token bucket is initialized full
(`available_permits = permit_num`), and for every positive `p`,
`try_acquire(p)` returns `true` and decreases `available_permits` by exactly
`p` when `available_permits ≥ p`, and otherwise returns `false` and leaves
`available_permits` unchanged. -/
theorem token_bucket_init_full_and_try_acquire (rate : Rate)
    (l : TokenBucketRateLimiter) (p : Nat) (_hp : 0 < p) :
    (TokenBucketRateLimiter.new rate).permits = (rate.permit_num : Int) ∧
    ((p : Int) ≤ l.permits →
      l.try_acquire p = (true, { l with permits := l.permits - (p : Int) })) ∧
    (l.permits < (p : Int) → l.try_acquire p = (false, l)) := by
  refine ⟨rfl, fun h => ?_, fun h => ?_⟩
  · unfold TokenBucketRateLimiter.try_acquire
    rw [if_neg (not_lt.mpr h)]
  · unfold TokenBucketRateLimiter.try_acquire
    rw [if_pos h]

/-- Concrete instance of C1: a bucket with rate 3/5 holding 2 permits grants
`try_acquire 2` and is left with 0 permits. -/
theorem token_bucket_init_full_and_try_acquire_witness :
    (⟨⟨3, 5⟩, 2, ⟨5, false⟩⟩ : TokenBucketRateLimiter).try_acquire 2 =
      (true, ⟨⟨3, 5⟩, 0, ⟨5, false⟩⟩) := by
  have h := (token_bucket_init_full_and_try_acquire ⟨3, 5⟩
    ⟨⟨3, 5⟩, 2, ⟨5, false⟩⟩ 2 (by decide)).2.1 (by decide)
  exact h

/-- Claim C2: a fixed-window `try_acquire(p)` at instant `now` first resets
the window (counter to 0, window start to `now`) when the elapsed time
exceeds `duration`; it then succeeds and increments the counter by `p` iff
`counter + p ≤ permit_num` evaluated after any reset, and fails leaving the
(possibly reset) counter unchanged otherwise. -/
theorem fixed_window_try_acquire (l : FixedWindowRateLimiter) (now p : Nat)
    (l1 : FixedWindowRateLimiter)
    (h : l1 = if l.rate.duration < now - l.window_start then l.reset_window now else l) :
    (l.rate.duration < now - l.window_start → l1 = ⟨l.rate, 0, now⟩) ∧
    ((l.try_acquire now p).1 = true ↔ l1.counter + p ≤ l.rate.permit_num) ∧
    ((l.try_acquire now p).1 = true →
      (l.try_acquire now p).2 = ⟨l1.rate, l1.counter + p, l1.window_start⟩) ∧
    ((l.try_acquire now p).1 = false → (l.try_acquire now p).2 = l1) := by
  subst h
  cases l with
  | mk rate c ws =>
      simp only [FixedWindowRateLimiter.try_acquire, FixedWindowRateLimiter.reset_window]
      refine ⟨?_, ?_, ?_, ?_⟩ <;> split_ifs <;> simp_all

/-- Concrete instance of C2: with quota 5 per 3 units, a limiter holding
counter 4 since instant 0 sees `try_acquire` at instant 10 reset the window
and grant 2 permits. -/
theorem fixed_window_try_acquire_witness :
    ((⟨⟨5, 3⟩, 4, 0⟩ : FixedWindowRateLimiter).try_acquire 10 2).1 = true := by
  have h := (fixed_window_try_acquire ⟨⟨5, 3⟩, 4, 0⟩ 10 2 ⟨⟨5, 3⟩, 0, 10⟩
    (by decide)).2.1.mpr (by decide)
  exact h

/-- Claim C3: a sliding-window-log `try_acquire(p)` unconditionally appends
`p` new entries, each expiring `duration` after `now` (the storage's TTL
being the rate's duration, as it is constructed), so the store grows by `p`
entries per call regardless of outcome; the call returns `true` iff the live
count measured after that insertion is at most `permit_num`. -/
theorem sliding_window_log_try_acquire (l : SlidingWindowLogRateLimiter)
    (now p : Nat) (h : l.log_storage.time_to_live = l.rate.duration) :
    ((l.try_acquire now p).2.log_storage.entries.length =
      l.log_storage.entries.length + p) ∧
    ((l.try_acquire now p).2.log_storage.entries =
      l.log_storage.entries ++ (List.range p).map
        (fun i => { token := l.log_storage.next_token + i,
                    expires_at := now + l.rate.duration })) ∧
    ((l.try_acquire now p).1 = true ↔
      (l.try_acquire now p).2.log_storage.count now ≤ l.rate.permit_num) := by
  refine ⟨?_, ?_, ?_⟩
  · simp [SlidingWindowLogRateLimiter.try_acquire, InMemoryLogStorage.store_eq]
  · simp [SlidingWindowLogRateLimiter.try_acquire, InMemoryLogStorage.store_eq, h]
  · simp [SlidingWindowLogRateLimiter.try_acquire]

/-- Concrete instance of C3: with quota 1 per 5 units and an empty store, a
request for 2 permits grows the store by 2 entries. -/
theorem sliding_window_log_try_acquire_witness :
    (((SlidingWindowLogRateLimiter.new ⟨1, 5⟩
        (InMemoryLogStorage.new 2 5)).try_acquire 0 2).2.log_storage.entries.length =
      (SlidingWindowLogRateLimiter.new ⟨1, 5⟩
        (InMemoryLogStorage.new 2 5)).log_storage.entries.length + 2) := by
  have h := (sliding_window_log_try_acquire
    (SlidingWindowLogRateLimiter.new ⟨1, 5⟩ (InMemoryLogStorage.new 2 5)) 0 2 rfl).1
  exact h

/-- Invariant machinery for the token bucket: any sequence of serialized
acquire/refill steps preserves `0 ≤ permits ≤ permit_num` and never changes
the rate. -/
lemma tb_foldl_invariant (steps : List TBStep) :
    ∀ l : TokenBucketRateLimiter, 0 ≤ l.permits →
      l.permits ≤ (l.rate.permit_num : Int) →
      0 ≤ (steps.foldl TBStep.apply l).permits ∧
      (steps.foldl TBStep.apply l).permits ≤
        ((steps.foldl TBStep.apply l).rate.permit_num : Int) ∧
      (steps.foldl TBStep.apply l).rate = l.rate := by
  induction steps with
  | nil => exact fun l h0 h1 => ⟨h0, h1, rfl⟩
  | cons s rest ih =>
      intro l h0 h1
      have hstep : 0 ≤ (TBStep.apply l s).permits ∧
          (TBStep.apply l s).permits ≤ ((TBStep.apply l s).rate.permit_num : Int) ∧
          (TBStep.apply l s).rate = l.rate := by
        cases s with
        | acquire p =>
            simp only [TBStep.apply, TokenBucketRateLimiter.try_acquire]
            split_ifs with hc
            · exact ⟨h0, h1, rfl⟩
            · refine ⟨?_, ?_, rfl⟩
              · show 0 ≤ l.permits - (p : Int)
                omega
              · show l.permits - (p : Int) ≤ (l.rate.permit_num : Int)
                omega
        | refill =>
            refine ⟨?_, ?_, rfl⟩
            · show 0 ≤ min (l.rate.permit_num : Int) (l.permits + (l.rate.permit_num : Int))
              exact le_min (Int.natCast_nonneg _) (add_nonneg h0 (Int.natCast_nonneg _))
            · show min (l.rate.permit_num : Int) (l.permits + (l.rate.permit_num : Int)) ≤
                (l.rate.permit_num : Int)
              exact min_le_left _ _
      have hrest := ih (TBStep.apply l s) hstep.1 hstep.2.1
      simp only [List.foldl_cons]
      exact ⟨hrest.1, hrest.2.1, hstep.2.2 ▸ hrest.2.2⟩

/-- Claim C4 as stated is false on the code: a sliding-window-log
`try_acquire` that returns `false` does not leave the limiter unchanged.
With quota 1 per 5 units and an empty store, a request for 2 permits is
rejected, yet the log store has grown by 2 entries. -/
theorem rejection_leaves_state_counterexample :
    (((SlidingWindowLogRateLimiter.new ⟨1, 5⟩
        (InMemoryLogStorage.new 2 5)).try_acquire 0 2).1 = false) ∧
    ((SlidingWindowLogRateLimiter.new ⟨1, 5⟩
        (InMemoryLogStorage.new 2 5)).try_acquire 0 2).2 ≠
      SlidingWindowLogRateLimiter.new ⟨1, 5⟩ (InMemoryLogStorage.new 2 5) := by
  decide

/-- Claim C4, amended to what the code does: a rejected token-bucket
`try_acquire` leaves the limiter exactly unchanged; a rejected fixed-window
`try_acquire` performs no counter increment, though it may still have reset
an elapsed window; and a sliding-window-log `try_acquire` always grows the
log store by `p` entries, accepted or not. -/
theorem rejection_leaves_state_amended :
    (∀ (l : TokenBucketRateLimiter) (p : Nat),
      (l.try_acquire p).1 = false → (l.try_acquire p).2 = l) ∧
    (∀ (l : FixedWindowRateLimiter) (now p : Nat),
      (l.try_acquire now p).1 = false →
        (l.try_acquire now p).2 =
          (if l.rate.duration < now - l.window_start then l.reset_window now else l)) ∧
    (∀ (l : SlidingWindowLogRateLimiter) (now p : Nat),
      (l.try_acquire now p).2.log_storage.entries.length =
        l.log_storage.entries.length + p) := by
  refine ⟨?_, ?_, ?_⟩
  · intro l p h
    simp only [TokenBucketRateLimiter.try_acquire] at h ⊢
    split_ifs at h ⊢ with hc
    all_goals rfl
  · intro l now p h
    simp only [FixedWindowRateLimiter.try_acquire] at h ⊢
    split_ifs at h ⊢ <;> rfl
  · intro l now p
    simp [SlidingWindowLogRateLimiter.try_acquire, InMemoryLogStorage.store_eq]

/-- Concrete instance of the amended C4: a token bucket with 0 available
permits rejects a request for 1 and is left unchanged. -/
theorem rejection_leaves_state_amended_witness :
    ((⟨⟨3, 5⟩, 0, ⟨5, false⟩⟩ : TokenBucketRateLimiter).try_acquire 1).2 =
      ⟨⟨3, 5⟩, 0, ⟨5, false⟩⟩ :=
  rejection_leaves_state_amended.1 ⟨⟨3, 5⟩, 0, ⟨5, false⟩⟩ 1 (by decide)

/-- Claim C5: with any of the three algorithms, `try_acquire(p)` with
`p > permit_num` returns `false` — for the token bucket on every state
reachable by acquire/refill interleavings, for the fixed window on any
counter and window start, and for the sliding window log on any store whose
TTL is the (positive) configured duration. -/
theorem over_quota_always_rejected (rate : Rate) (p : Nat)
    (hp : rate.permit_num < p) :
    (∀ steps : List TBStep,
      ((TokenBucketRateLimiter.run rate steps).try_acquire p).1 = false) ∧
    (∀ c ws now : Nat,
      ((⟨rate, c, ws⟩ : FixedWindowRateLimiter).try_acquire now p).1 = false) ∧
    (∀ (st : InMemoryLogStorage) (now : Nat), st.time_to_live = rate.duration →
      0 < rate.duration →
      ((⟨rate, st⟩ : SlidingWindowLogRateLimiter).try_acquire now p).1 = false) := by
  refine ⟨?_, ?_, ?_⟩
  · intro steps
    have h := tb_foldl_invariant steps (TokenBucketRateLimiter.new rate)
      (Int.natCast_nonneg _) (le_refl _)
    have h2 := h.2.1
    rw [h.2.2] at h2
    have hle : (TokenBucketRateLimiter.run rate steps).permits ≤
        (rate.permit_num : Int) := h2
    have hlt : (TokenBucketRateLimiter.run rate steps).permits < (p : Int) := by
      omega
    simp only [TokenBucketRateLimiter.try_acquire]
    rw [if_pos hlt]
  · intro c ws now
    simp only [FixedWindowRateLimiter.try_acquire, FixedWindowRateLimiter.reset_window]
    split_ifs <;> first | rfl | (exfalso; simp_all <;> omega)
  · intro st now httl hd
    simp only [SlidingWindowLogRateLimiter.try_acquire, decide_eq_false_iff_not]
    intro hle
    have hc := st.count_store_ge p rate.duration now (httl ▸ hd)
    omega

/-- Concrete instance of C5: a token bucket with quota 2 that has granted 1
permit rejects a request for 3. -/
theorem over_quota_always_rejected_witness :
    ((TokenBucketRateLimiter.run ⟨2, 5⟩ [TBStep.acquire 1]).try_acquire 3).1 = false :=
  (over_quota_always_rejected ⟨2, 5⟩ 3 (by decide)).1 [TBStep.acquire 1]

/-- Claim C6: for every interleaving of serialized acquire and refill steps
starting from a freshly constructed token bucket, the available permit count
stays between 0 and `permit_num`: acquires never drive it negative and
saturating refills never push it above `permit_num`. -/
theorem token_bucket_permits_invariant (rate : Rate) (steps : List TBStep) :
    0 ≤ (TokenBucketRateLimiter.run rate steps).permits ∧
    (TokenBucketRateLimiter.run rate steps).permits ≤ (rate.permit_num : Int) := by
  have h := tb_foldl_invariant steps (TokenBucketRateLimiter.new rate)
    (Int.natCast_nonneg _) (le_refl _)
  have h2 := h.2.1
  rw [h.2.2] at h2
  exact ⟨h.1, h2⟩

/-- Claim C7 as stated is false on the code: `store(n, duration)` does not
give entries the expiration passed to that call — the `duration` argument is
unused in the source, and entries expire according to the TTL the cache was
built with.  A store built with TTL 2 asked to `store(1, 5)` at instant 0
holds no live entry at instant 3, whereas the claimed per-call expiration of
5 would leave one. -/
theorem log_storage_store_duration_counterexample :
    ((InMemoryLogStorage.new 10 2).store 1 5 0).count 3 = 0 ∧
    ((InMemoryLogStorage.new 10 2).storeClaimed 1 5 0).count 3 = 1 := by
  decide

/-- Claim C7, amended: starting from an empty store, `store(n, d)` inserts
`n` fresh uniquely-tokenized entries each carrying the expiration configured
at the store's construction (the per-call `d` is ignored), and a `count()`
performed immediately afterwards — before any entry expires, i.e. with a
positive configured TTL — returns exactly `n`. -/
theorem log_storage_store_count (size ttl n d now : Nat) (h : 0 < ttl) :
    (((InMemoryLogStorage.new size ttl).store n d now).count now = n) ∧
    ((((InMemoryLogStorage.new size ttl).store n d now).entries.map
        LogEntry.token).Nodup) ∧
    (∀ e ∈ ((InMemoryLogStorage.new size ttl).store n d now).entries,
      e.expires_at = now + ttl) ∧
    (∀ d2, (InMemoryLogStorage.new size ttl).store n d2 now =
      (InMemoryLogStorage.new size ttl).store n d now) := by
  refine ⟨?_, ?_, ?_, ?_⟩
  · rw [InMemoryLogStorage.store_eq]
    simp only [InMemoryLogStorage.new, InMemoryLogStorage.count, List.nil_append]
    rw [List.filter_eq_self.mpr]
    · simp
    · intro e he
      simp only [List.mem_map, List.mem_range] at he
      obtain ⟨i, _, rfl⟩ := he
      simpa using h
  · rw [InMemoryLogStorage.store_eq]
    simp only [InMemoryLogStorage.new, List.nil_append, List.map_map]
    simp only [Function.comp_def, Nat.zero_add]
    simpa using List.nodup_range n
  · rw [InMemoryLogStorage.store_eq]
    intro e he
    simp only [InMemoryLogStorage.new, List.nil_append, List.mem_map] at he
    obtain ⟨i, _, rfl⟩ := he
    rfl
  · intro d2
    exact InMemoryLogStorage.store_duration_irrelevant _ n d2 d now

/-- Concrete instance of the amended C7: two entries stored into an empty
TTL-2 store are both counted immediately. -/
theorem log_storage_store_count_witness :
    ((InMemoryLogStorage.new 3 2).store 2 9 0).count 0 = 2 :=
  (log_storage_store_count 3 2 2 9 0 (by decide)).1

/-- Claim C8: the sleep duration computed by one iteration of the scheduler
loop is never negative — it equals the period minus the action's execution
time when the action fits within the period, and zero (proceed immediately)
when the action overruns the period, thanks to the saturating instant
subtraction. -/
theorem scheduler_sleep_never_negative (interval t0 t1 : Int) :
    0 ≤ scheduler_loop_sleep interval t0 t1 ∧
    (t1 - t0 ≤ interval →
      scheduler_loop_sleep interval t0 t1 = interval - (t1 - t0)) ∧
    (interval ≤ t1 - t0 → scheduler_loop_sleep interval t0 t1 = 0) := by
  unfold scheduler_loop_sleep instant_sub
  refine ⟨le_max_right _ _, fun h => ?_, fun h => ?_⟩
  · rw [max_eq_left (by omega)]
    omega
  · rw [max_eq_right (by omega)]

/-- Concrete instance of C8: with a period of 5, an action that took 7 time
units yields a computed sleep of exactly 0. -/
theorem scheduler_sleep_never_negative_witness :
    scheduler_loop_sleep 5 0 7 = 0 :=
  (scheduler_sleep_never_negative 5 0 7).2.2 (by decide)

/-- Claim C9: `Scheduler::start` returns `false`, changes nothing and spawns
nothing when the scheduler is already running, and otherwise marks it
running, spawns the periodic task and returns `true`; consequently, a second
`TokenBucketRateLimiter::start` on the same instance is a no-op that spawns
no second refill task. -/
theorem scheduler_start_idempotent (s : Scheduler) (l : TokenBucketRateLimiter) :
    (s.is_running = true → Scheduler.start s = (false, s, false)) ∧
    (s.is_running = false →
      Scheduler.start s = (true, { s with is_running := true }, true)) ∧
    (l.start.1.start = (l.start.1, false)) := by
  refine ⟨fun h => ?_, fun h => ?_, ?_⟩
  · unfold Scheduler.start
    rw [if_pos h]
  · unfold Scheduler.start
    rw [if_neg (by simp [h])]
  · cases hr : l.schedulers.is_running <;>
      simp [TokenBucketRateLimiter.start, Scheduler.start, hr]

/-- Concrete instance of C9: starting a fresh scheduler marks it running and
spawns the task. -/
theorem scheduler_start_idempotent_witness :
    Scheduler.start ⟨3, false⟩ = (true, ⟨3, true⟩, true) :=
  (scheduler_start_idempotent ⟨3, false⟩
    (TokenBucketRateLimiter.new ⟨1, 3⟩)).2.1 rfl

/-- Claim C10 as stated is false on the code: `Rate` construction performs
no validation.  The checked constructor the claim describes rejects
`permit_num = 0, duration = 0`, yet the source builds such a `Rate` by a
plain struct literal and a working token bucket from it. -/
theorem rate_construction_counterexample :
    Rate.newChecked 0 0 = none ∧
    (TokenBucketRateLimiter.new ⟨0, 0⟩).permits = 0 ∧
    ((TokenBucketRateLimiter.new ⟨0, 0⟩).try_acquire 1).1 = false := by
  decide

/-- Claim C10, amended: `Rate` construction performs no validation — any
`permit_num` and `duration`, zero included, yield a usable `Rate` carrying
exactly those values (a token bucket built from it starts with that quota,
a fixed window with a zero counter); rejecting non-positive configuration is
the caller's responsibility. -/
theorem rate_construction_unvalidated (pn d : Nat) :
    (Rate.mk pn d).permit_num = pn ∧ (Rate.mk pn d).duration = d ∧
    (TokenBucketRateLimiter.new (Rate.mk pn d)).permits = (pn : Int) ∧
    (FixedWindowRateLimiter.new (Rate.mk pn d) 0).counter = 0 :=
  ⟨rfl, rfl, rfl, rfl⟩

end Posi
